import Mathlib

/-!
Shallow embedding of the `config` package (src/config.go): a reflective
configuration loader that binds the fields of a user-supplied Go struct to
command-line flags and environment variables, with precedence
flag > environment > struct default.

The struct walker (`reflectStruct` / its per-field body) is translated
directly from src/config.go.  The naming engine (the strcase library), the
string parsers (strconv / time) and the flag registrar (the flag package)
are external collaborators whose sources are not under src/; they are
modelled from the spec, faithfully to the library behaviour the tests rely
on, and are documented as such at each definition.
-/

namespace Config

/-- ASCII uppercase test, mirroring the byte comparisons `v >= 'A' && v <= 'Z'`
of the strcase library. -/
def isCapB (c : Char) : Bool := 'A' ≤ c && c ≤ 'Z'

/-- ASCII lowercase test (`v >= 'a' && v <= 'z'`). -/
def isLowB (c : Char) : Bool := 'a' ≤ c && c ≤ 'z'

/-- ASCII digit test (`v >= '0' && v <= '9'`). -/
def isNumB (c : Char) : Bool := '0' ≤ c && c ≤ '9'

/-- Lower-case an ASCII capital (`v += 'a' - 'A'`); other characters unchanged. -/
def lowerB (c : Char) : Char := if isCapB c then Char.ofNat (c.toNat + 32) else c

/-- Upper-case an ASCII lowercase letter (`v -= 'a' - 'A'`); others unchanged. -/
def upperB (c : Char) : Char := if isLowB c then Char.ofNat (c.toNat - 32) else c

/-- Is the character one of the word separators replaced by the delimiter
(space, underscore, hyphen, dot)? -/
def isSepB (c : Char) : Bool := c = ' ' || c = '_' || c = '-' || c = '.'

/-- Modelled from the spec (§4.1 Naming Engine): the core of
`strcase.ToScreamingDelimited` (github.com/iancoleman/strcase, not under
src/), specialised to an empty ignore set, over ASCII identifiers.
`prev` is the previously consumed character (for the acronym-run rule). -/
def tsdGo (screaming : Bool) (delim : Char) : Option Char → List Char → List Char
  | _, [] => []
  | prev, v :: rest =>
    let cased := if screaming then upperB v else lowerB v
    let emit : List Char :=
      match rest with
      | [] => if isSepB v then [delim] else [cased]
      | next :: _ =>
        let boundary :=
          (isCapB v && (isLowB next || isNumB next)) ||
          (isLowB v && (isCapB next || isNumB next)) ||
          (isNumB v && (isCapB next || isLowB next))
        if boundary then
          (if isCapB v && isLowB next &&
              (match prev with | some p => isCapB p | none => false)
           then [delim] else [])
          ++ [cased]
          ++ (if isLowB v || isNumB v || isNumB next then [delim] else [])
        else if isSepB v then [delim] else [cased]
    emit ++ tsdGo screaming delim (some v) rest

/-- `strings.TrimSpace` over a character list (leading and trailing
whitespace removed). -/
def trimChars (cs : List Char) : List Char :=
  ((cs.dropWhile Char.isWhitespace).reverse.dropWhile Char.isWhitespace).reverse

/-- Modelled from the spec (§4.1 `toFlagStyle`): `strcase.ToKebab`:
lowercase tokens joined by hyphens, camel-case boundaries split, acronym
runs kept as one token. -/
def toKebab (s : String) : String :=
  String.mk (tsdGo false '-' none (trimChars s.toList))

/-- Modelled from the spec (§4.1 `toEnvStyle`): `strcase.ToScreamingSnake`:
uppercase tokens joined by underscores, same boundary rules. -/
def toScreamingSnake (s : String) : String :=
  String.mk (tsdGo true '_' none (trimChars s.toList))

example : toKebab "SnakeCase" = "snake-case" := by decide
example : toKebab "Hyphen-Case" = "hyphen-case" := by decide
example : toKebab "Underscore_Case" = "underscore-case" := by decide
example : toKebab "FieldAPIKey" = "field-api-key" := by decide
example : toKebab "FieldURLAddr" = "field-url-addr" := by decide
example : toKebab "FieldHTTPServer" = "field-http-server" := by decide
example : toScreamingSnake "SnakeCase" = "SNAKE_CASE" := by decide
example : toScreamingSnake "FieldAPIKey" = "FIELD_API_KEY" := by decide
example : toScreamingSnake "FieldURLAddr" = "FIELD_URL_ADDR" := by decide
example : toScreamingSnake "FieldHTTPServer" = "FIELD_HTTP_SERVER" := by decide
example : toKebab "addr-" = "addr-" := by decide
example : toScreamingSnake "addr-street" = "ADDR_STREET" := by decide

/-- Digit run to a natural number, base 10. -/
def digitsToNat (l : List Char) : Nat :=
  l.foldl (fun a c => a * 10 + (c.toNat - '0'.toNat)) 0

/-- Modelled from the spec (§4.2 integer types, base-10 parse):
`strconv.Atoi` / `strconv.ParseInt(s, 10, 64)` (Go stdlib, not under src/):
optional sign followed by a nonempty digit run; `none` is the ParseError
case.  The 64-bit range check is not modelled (no claim exercises it). -/
def parseDecInt (s : String) : Option Int :=
  match s.toList with
  | [] => none
  | '+' :: ds => if ds ≠ [] ∧ ds.all isNumB then some (digitsToNat ds) else none
  | '-' :: ds => if ds ≠ [] ∧ ds.all isNumB then some (-(digitsToNat ds : Int)) else none
  | ds => if ds.all isNumB then some (digitsToNat ds) else none

/-- Decimal core of the float grammar: digits with an optional fractional
part, at least one digit overall. -/
def parseFloatCore (cs : List Char) : Option Rat :=
  let ip := cs.takeWhile (fun c => c ≠ '.')
  let rest := cs.dropWhile (fun c => c ≠ '.')
  match rest with
  | [] => if ip ≠ [] ∧ ip.all isNumB then some ((digitsToNat ip : Rat)) else none
  | _ :: fp =>
    if (ip ≠ [] ∨ fp ≠ []) ∧ ip.all isNumB ∧ fp.all isNumB then
      some ((digitsToNat ip : Rat) + (digitsToNat fp : Rat) / ((10 : Rat) ^ fp.length))
    else none

/-- Modelled from the spec (§4.2 floating point, standard float parse):
`strconv.ParseFloat` (Go stdlib, not under src/).  Float64 values are
modelled as rationals; the grammar here is the plain decimal form
(exponent, hexadecimal and inf/NaN forms omitted — no claim exercises
float parsing). -/
def parseFloatGo (s : String) : Option Rat :=
  match s.toList with
  | '+' :: cs => parseFloatCore cs
  | '-' :: cs => (parseFloatCore cs).map Neg.neg
  | cs => parseFloatCore cs

/-- Nanosecond multiplier of a duration unit (`ns`, `us`, `ms`, `s`, `m`,
`h`); the Unicode µs spellings are omitted. -/
def unitMult (us : List Char) : Option Int :=
  if us = ['n', 's'] then some 1
  else if us = ['u', 's'] then some 1000
  else if us = ['m', 's'] then some 1000000
  else if us = ['s'] then some 1000000000
  else if us = ['m'] then some 60000000000
  else if us = ['h'] then some 3600000000000
  else none

/-- One or more `digits ++ unit` components, fuel-bounded (the caller passes
the input length, which suffices since every component consumes at least
one character). -/
def durComps : Nat → List Char → Option Int
  | 0, _ => none
  | fuel + 1, cs =>
    let ds := cs.takeWhile isNumB
    let rest₁ := cs.dropWhile isNumB
    if ds = [] then none
    else
      let us := rest₁.takeWhile (fun c => !(isNumB c))
      let rest₂ := rest₁.dropWhile (fun c => !(isNumB c))
      match unitMult us with
      | none => none
      | some m =>
        let v : Int := (digitsToNat ds : Int) * m
        if rest₂ = [] then some v
        else (durComps fuel rest₂).map (fun w => v + w)

/-- Modelled from the spec (§4.2 duration: "a signed magnitude-plus-unit
time span ... e.g. `1h`, `30s`"): `time.ParseDuration` (Go stdlib, not
under src/), yielding nanoseconds.  Fractional magnitudes are omitted —
no claim exercises duration parsing. -/
def parseDurGo (s : String) : Option Int :=
  match s.toList with
  | [] => none
  | cs₀ =>
    let signed : Bool × List Char :=
      match cs₀ with
      | '-' :: r => (true, r)
      | '+' :: r => (false, r)
      | r => (false, r)
    if signed.2 = ['0'] then some 0
    else (durComps (signed.2.length + 1) signed.2).map
      (fun n => if signed.1 then -n else n)

/-- Modelled from the spec (§4.2 boolean, case-insensitive match):
`strings.ToUpper` (Go stdlib, not under src/), restricted to ASCII. -/
def goToUpper (s : String) : String := String.mk (s.toList.map upperB)

example : parseDecInt "7" = some 7 := rfl
example : parseDecInt "-42" = some (-42) := rfl
example : parseDecInt "4x2" = none := rfl
example : parseDurGo "1h" = some 3600000000000 := rfl
example : parseDurGo "1h30m" = some 5400000000000 := rfl
example : goToUpper "tRuE" = "TRUE" := by decide

/-- The process environment table (spec §6 collaborator contract —
Environment Table: `lookup(name) -> (value, present)`), modelled as an
association list. -/
def Env : Type := List (String × String)

/-- `os.LookupEnv` (Go stdlib, not under src/).  Go's `syscall.Getenv`
returns not-found for the empty key (`if len(key) == 0 { return "", false }`),
which the model reproduces. -/
def osLookupEnv (e : Env) (key : String) : Option String :=
  if key = "" then none
  else (List.find? (fun p => p.1 == key) e).map (fun p => p.2)

/-- A value of one of the six supported scalar kinds of src/config.go
(`int`, `int64`, `float64`, `string`, `bool`, `time.Duration`).  Machine
integers are modelled as `Int` (overflow is never exercised by a claim),
float64 as `Rat`, durations as nanosecond counts. -/
inductive SVal where
  | sInt (v : Int)
  | sInt64 (v : Int)
  | sFloat64 (v : Rat)
  | sStr (v : String)
  | sBool (v : Bool)
  | sDur (v : Int)
deriving DecidableEq

/-- The Go `interface{}` value handed to `lookupEnv`: either a value of a
supported scalar dynamic type, or a value of any other dynamic type,
modelled opaquely by its Go type string (the concrete contents of such a
value are irrelevant to every code path: only its dynamic type is
inspected). -/
inductive GoVal where
  | known (v : SVal)
  | unknown (typeName : String)
deriving DecidableEq

/-- The errors produced by src/config.go (spec §7 taxonomy):
`invalidArgument` is "argument is not a struct pointer" (line 101);
`parseErr fn envNm raw` are the wrapped strconv/time parse errors of
`lookupEnv` (lines 39/45/51/65); `unsupportedLookup` is `lookupEnv`'s
default case "lookupEnv[%s]: unsupported type %v" (line 69, the `%v`
formatted value modelled by the opaque type string of `GoVal.unknown`);
`unsupportedStructType` is "unsuported struct type %s" (line 203);
`fieldFailure` is the per-level wrap "%w; %s: field failure" (line 153);
`typeAssertPanic` stands for a failed type assertion in the registration
switch, which is proved unreachable. -/
inductive GoErr where
  | invalidArgument
  | parseErr (fn : String) (envNm : String) (raw : String)
  | unsupportedLookup (envNm : String) (typeName : String)
  | unsupportedStructType (typeName : String)
  | fieldFailure (inner : GoErr) (fieldName : String)
  | typeAssertPanic
deriving DecidableEq

/-- `lookupEnv` of src/config.go lines 27-71: look the name up in the
environment; if absent return the default unchanged; if present parse the
raw string according to the default's dynamic type. -/
def lookupEnv (env : Env) (envNm : String) (defaultVal : GoVal) : Except GoErr GoVal :=
  match osLookupEnv env envNm with
  | none => .ok defaultVal
  | some res =>
    match defaultVal with
    | .known (.sInt _) =>
      match parseDecInt res with
      | some v => .ok (.known (.sInt v))
      | none => .error (.parseErr "Atoi" envNm res)
    | .known (.sInt64 _) =>
      match parseDecInt res with
      | some v => .ok (.known (.sInt64 v))
      | none => .error (.parseErr "ParseInt" envNm res)
    | .known (.sFloat64 _) =>
      match parseFloatGo res with
      | some v => .ok (.known (.sFloat64 v))
      | none => .error (.parseErr "ParseFloat" envNm res)
    | .known (.sBool _) =>
      let bstr := goToUpper res
      .ok (.known (.sBool (bstr == "TRUE" || bstr == "1")))
    | .known (.sStr _) => .ok (.known (.sStr res))
    | .known (.sDur _) =>
      match parseDurGo res with
      | some v => .ok (.known (.sDur v))
      | none => .error (.parseErr "ParseDuration" envNm res)
    | .unknown t => .error (.unsupportedLookup envNm t)

/-- The three optional struct-tag items read by the walker: `flag` and
`env` distinguish absent (`none`) from present-but-empty (`some ""`,
`Lookup` semantics), `usage` is read with `Get` (empty string if absent). -/
structure Tags where
  flag : Option String
  env : Option String
  usage : String
deriving DecidableEq

/-- A `flag` / `env` tag pair with nothing set. -/
def Tags.none' : Tags := ⟨none, none, ""⟩

mutual
/-- One struct field as seen by reflection: its Go identifier, its tags,
whether it is exported (`CanInterface && CanSet`), and its value. -/
inductive GoField where
  | mk (name : String) (tags : Tags) (exported : Bool) (val : FieldVal)

/-- The reflective shape of a field's value: a supported scalar, an inline
struct, a nil or non-nil pointer to struct, a pointer to a non-struct
(nil or not), or a value of any other kind, carried by its Go type
string. -/
inductive FieldVal where
  | scalar (v : SVal)
  | strct (s : Fields)
  | ptrStructNil
  | ptrStructSome (s : Fields)
  | ptrOther (isNil : Bool)
  | other (typeName : String)

/-- The field list of a struct (its own inductive rather than `List`, so
that the walker is structurally recursive and computes by `rfl`). -/
inductive Fields where
  | nil
  | cons (f : GoField) (fs : Fields)
end

deriving instance DecidableEq for GoField, FieldVal, Fields
deriving instance DecidableEq for Except

def GoField.name : GoField → String
  | .mk n _ _ _ => n

def GoField.tags : GoField → Tags
  | .mk _ t _ _ => t

def GoField.exported : GoField → Bool
  | .mk _ _ e _ => e

def GoField.val : GoField → FieldVal
  | .mk _ _ _ v => v

def Fields.get? : Fields → Nat → Option GoField
  | .nil, _ => none
  | .cons f _, 0 => some f
  | .cons _ fs, n + 1 => fs.get? n

def Fields.append : Fields → Fields → Fields
  | .nil, ys => ys
  | .cons f fs, ys => .cons f (fs.append ys)

def Fields.length : Fields → Nat
  | .nil => 0
  | .cons _ fs => fs.length + 1

def Fields.modify : Fields → Nat → (GoField → GoField) → Fields
  | .nil, _, _ => .nil
  | .cons f fs, 0, g => .cons (g f) fs
  | .cons f fs, n + 1, g => .cons f (fs.modify n g)

/-- One registered flag (spec §6 collaborator contract — Flag Registrar):
the flag name, the resolved default written through the binding at
registration time, and the usage text, as passed to `flagset.XxxVar`.
`path` is the binding itself — the field's location as the index path from
the root struct (a mutable reference in Go).  `envName` is bookkeeping for
the proofs: the environment name this field's lookup consulted (`none`
when the lookup was suppressed by `env:"-"`). -/
structure FlagReg where
  name : String
  defaultVal : SVal
  usage : String
  path : List Nat
  envName : Option String
deriving DecidableEq

/-- Lines 126-134 of src/config.go: the flag name of a field is
`strcase.ToKebab(pfx) + strcase.ToKebab(field.Name)`, unless a non-empty
flag tag replaces the second summand verbatim.  (The `"-"` tag skips the
field before this name is ever used.) -/
def flagNameFor (pfx name : String) (ftag : Option String) : String :=
  toKebab pfx ++ (match ftag with
    | some t => if t = "" then toKebab name else t
    | none => toKebab name)

/-- Lines 160-166 of src/config.go: the environment name is the env tag
when present, else `strcase.ToScreamingSnake(flagName)`. -/
def envNameFor (flagName : String) (etag : Option String) : String :=
  match etag with
  | some t => t
  | none => toScreamingSnake flagName

/-- The type assertion `defaultVal.(T)` performed in the registration
switch of lines 183-201: succeeds exactly when the resolved default has
the same dynamic type as the field.  (It is proved below that `lookupEnv`
preserves the dynamic type, so the `none` case is unreachable.) -/
def assertSame : SVal → GoVal → Option SVal
  | .sInt _, .known (.sInt n) => some (.sInt n)
  | .sInt64 _, .known (.sInt64 n) => some (.sInt64 n)
  | .sFloat64 _, .known (.sFloat64 x) => some (.sFloat64 x)
  | .sStr _, .known (.sStr x) => some (.sStr x)
  | .sBool _, .known (.sBool b) => some (.sBool b)
  | .sDur _, .known (.sDur n) => some (.sDur n)
  | _, _ => none

mutual
/-- The body of the field loop of `reflectStruct` (src/config.go lines
114-205) for the field at index `i`, under accumulated name prefix `pfx`.
On success it returns the field after any in-place writes, the flags it
registered (with their binding paths, relative to the enclosing struct),
and the list of environment names it looked up. -/
def stepField (env : Env) (pfx : String) (i : Nat) (f : GoField) :
    Except GoErr (GoField × List FlagReg × List String) :=
  match f with
  | .mk name tags exported fv =>
    if !exported then .ok (f, [], [])
    else if tags.flag = some "-" then .ok (f, [], [])
    else
      let flagName := flagNameFor pfx name tags.flag
      match fv with
      | .strct child =>
        let fpfx := if tags.flag = some "" then "" else flagName ++ "-"
        match goFields env child fpfx 0 with
        | .error e => .error (.fieldFailure e name)
        | .ok (c, regs, tr) =>
          .ok (.mk name tags exported (.strct c),
               regs.map (fun r => { r with path := i :: r.path }), tr)
      | .ptrStructSome child =>
        let fpfx := if tags.flag = some "" then "" else flagName ++ "-"
        match goFields env child fpfx 0 with
        | .error e => .error (.fieldFailure e name)
        | .ok (c, regs, tr) =>
          .ok (.mk name tags exported (.ptrStructSome c),
               regs.map (fun r => { r with path := i :: r.path }), tr)
      | .ptrStructNil => .ok (f, [], [])
      | .ptrOther _ => .ok (f, [], [])
      | .scalar v =>
        let envName := envNameFor flagName tags.env
        match (if tags.env = some "-" then Except.ok (GoVal.known v)
               else lookupEnv env envName (.known v)) with
        | .error e => .error e
        | .ok d =>
          match assertSame v d with
          | none => .error .typeAssertPanic
          | some w =>
            .ok (.mk name tags exported (.scalar w),
                 [{ name := flagName, defaultVal := w, usage := tags.usage,
                    path := [i],
                    envName := if tags.env = some "-" then none else some envName }],
                 if tags.env = some "-" then [] else [envName])
      | .other tn =>
        let envName := envNameFor flagName tags.env
        match (if tags.env = some "-" then Except.ok (GoVal.unknown tn)
               else lookupEnv env envName (.unknown tn)) with
        | .error e => .error e
        | .ok _ => .error (.unsupportedStructType tn)

/-- The field loop of `reflectStruct`, from index `i`: process each field
in declaration order, short-circuiting on the first error (fail-fast). -/
def goFields (env : Env) : Fields → String → Nat →
    Except GoErr (Fields × List FlagReg × List String)
  | .nil, _, _ => .ok (.nil, [], [])
  | .cons f rest, pfx, i =>
    match stepField env pfx i f with
    | .error e => .error e
    | .ok (f', regs₁, tr₁) =>
      match goFields env rest pfx (i + 1) with
      | .error e => .error e
      | .ok (rest', regs₂, tr₂) =>
        .ok (.cons f' rest', regs₁ ++ regs₂, tr₁ ++ tr₂)
end

/-- `reflectStruct` of src/config.go lines 111-208, on the pointed-to
struct: walk the fields under prefix `pfx`.  (In Go earlier fields' writes
survive a later error; the model returns the updated struct only on
success, which is the only case any claim speaks about.  Pointer-held
substructures are modelled as owned subtrees, matching the acyclic-tree
expectation of spec §5.) -/
def reflectStruct (env : Env) (s : Fields) (pfx : String) :
    Except GoErr (Fields × List FlagReg × List String) :=
  goFields env s pfx 0

/-- The argument of `readConfig` as classified by lines 99-102: a
non-pointer value (including a nil interface), a nil pointer, or a
non-nil pointer whose target is a struct or some other kind (named by its
reflect kind string). -/
inductive GoArg where
  | notPtr
  | nilPtr
  | ptrToStruct (s : Fields)
  | ptrToOther (kindName : String)

/-- The observable outcome of a call that in Go may return normally,
return an error, or panic. -/
inductive Outcome (α : Type) where
  | ok (a : α)
  | err (e : GoErr)
  | panic (msg : String)
deriving DecidableEq

/-- `readConfig` of src/config.go lines 98-109: reject a non-pointer or
nil argument with the InvalidArgument error, then walk with the empty
prefix.  A non-nil pointer to a non-struct passes the guard, and
`v.Elem().NumField()` at line 114 then panics (reflect's documented
behaviour for `NumField` on a non-struct value). -/
def readConfig (cfg : GoArg) (env : Env) :
    Outcome (Fields × List FlagReg × List String) :=
  match cfg with
  | .notPtr => .err .invalidArgument
  | .nilPtr => .err .invalidArgument
  | .ptrToOther k =>
    .panic ("reflect: call of reflect.Value.NumField on " ++ k ++ " Value")
  | .ptrToStruct s =>
    match reflectStruct env s "" with
    | .ok r => .ok r
    | .error e => .err e

/-- The command-line values explicitly supplied for flags, as the flag
package hands them over after tokenising and type-checking the argument
vector: a map from flag name to parsed value (spec §6 collaborator
contract — Flag Registrar, `parseAll(argumentVector)`). -/
def Supplied : Type := List (String × SVal)

def lookupArg (sup : Supplied) (n : String) : Option SVal :=
  (List.find? (fun p => p.1 == n) sup).map (fun p => p.2)

/-- Write a scalar value through a binding: descend along the index path
and replace the scalar held there (the Go side is a plain store through
the registered pointer). -/
def setAt : Fields → List Nat → SVal → Fields
  | fs, [], _ => fs
  | fs, [j], v => fs.modify j (fun f =>
      match f with
      | .mk n t e (.scalar _) => .mk n t e (.scalar v)
      | g => g)
  | fs, j :: t, v => fs.modify j (fun f =>
      match f with
      | .mk n tg e (.strct c) => .mk n tg e (.strct (setAt c t v))
      | .mk n tg e (.ptrStructSome c) => .mk n tg e (.ptrStructSome (setAt c t v))
      | g => g)

/-- Modelled from the spec (§6 Flag Registrar collaborator, `parseAll`;
the flag package is not under src/): `flag.Parse` writes each explicitly
supplied value through its flag's binding; flags not supplied keep the
default already written at registration. -/
def parseAll (regs : List FlagReg) (sup : Supplied) (s : Fields) : Fields :=
  regs.foldl (fun acc reg =>
    match lookupArg sup reg.name with
    | some c => setAt acc reg.path c
    | none => acc) s

/-- `ReadConfig` of src/config.go lines 82-88: run `readConfig` on the
process flag set, then `flag.Parse()` over the argument vector.  The
registration list is returned alongside the final struct (in Go it
persists in the global flag set). -/
def ReadConfig (cfg : GoArg) (env : Env) (sup : Supplied) :
    Outcome (Fields × List FlagReg) :=
  match readConfig cfg env with
  | .ok (s, regs, _) => .ok (parseAll regs sup s, regs)
  | .err e => .err e
  | .panic m => .panic m

/-- The `MyConfig` struct of the repository's test file, with the
struct-literal defaults of its "Basic" scenario. -/
def myCfgBasic : Fields :=
  .cons (.mk "FirstName" ⟨some "first_name", none, "first name of user"⟩ true
          (.scalar (.sStr "John")))
  (.cons (.mk "LastName" ⟨none, none, "last name of user"⟩ true (.scalar (.sStr "")))
  (.cons (.mk "Age" ⟨none, none, "age in dog years"⟩ true (.scalar (.sInt 0)))
  (.cons (.mk "Swimmer" Tags.none' true (.scalar (.sBool false)))
  (.cons (.mk "Debug" ⟨none, some "-", ""⟩ true (.scalar (.sBool false)))
  .nil))))

/-- Validation against the repository's "Basic" test: env
`SWIMMER=true, DEBUG=true`, args `-last-name Smith -age 7`; the loaded
struct has FirstName John, LastName Smith, Age 7, Swimmer true (from the
environment), Debug false (`env:"-"` ignores DEBUG). -/
example :
    ReadConfig (.ptrToStruct myCfgBasic)
        [("SWIMMER", "true"), ("DEBUG", "true")]
        [("last-name", .sStr "Smith"), ("age", .sInt 7)] = .ok (
      .cons (.mk "FirstName" ⟨some "first_name", none, "first name of user"⟩ true
              (.scalar (.sStr "John")))
      (.cons (.mk "LastName" ⟨none, none, "last name of user"⟩ true
              (.scalar (.sStr "Smith")))
      (.cons (.mk "Age" ⟨none, none, "age in dog years"⟩ true (.scalar (.sInt 7)))
      (.cons (.mk "Swimmer" Tags.none' true (.scalar (.sBool true)))
      (.cons (.mk "Debug" ⟨none, some "-", ""⟩ true (.scalar (.sBool false)))
      .nil)))),
      [⟨"first_name", .sStr "John", "first name of user", [0], some "FIRST_NAME"⟩,
       ⟨"last-name", .sStr "", "last name of user", [1], some "LAST_NAME"⟩,
       ⟨"age", .sInt 0, "age in dog years", [2], some "AGE"⟩,
       ⟨"swimmer", .sBool true, "", [3], some "SWIMMER"⟩,
       ⟨"debug", .sBool false, "", [4], none⟩]) := by decide

/-- The nested `Ss2` struct of the repository's "Nested structs" test. -/
def ss2Fields : Fields :=
  .cons (.mk "Street" Tags.none' true (.scalar (.sStr "")))
  (.cons (.mk "Zip" ⟨some "postcode", none, ""⟩ true (.scalar (.sStr "")))
  .nil)

/-- The enclosing `Ss1` struct of the "Nested structs" test: an inline
nested struct `Addr` and a pointer-held nested struct `Addr2` carrying the
explicitly empty flag tag. -/
def ss1Fields : Fields :=
  .cons (.mk "Name" Tags.none' true (.scalar (.sStr "")))
  (.cons (.mk "Addr" Tags.none' true (.strct ss2Fields))
  (.cons (.mk "Addr2" ⟨some "", none, ""⟩ true (.ptrStructSome ss2Fields))
  .nil))

/-- Validation against the repository's "Nested structs" test: env
`ADDR_STREET=145 Hogarth Ln, POSTCODE=w68rx`, no args; flags registered
are name, addr-street, addr-postcode, street, postcode; Addr.Street gets
the environment value, Addr2.Zip gets POSTCODE, Addr2.Street stays empty. -/
example :
    ReadConfig (.ptrToStruct ss1Fields)
        [("ADDR_STREET", "145 Hogarth Ln"), ("POSTCODE", "w68rx")] [] = .ok (
      .cons (.mk "Name" Tags.none' true (.scalar (.sStr "")))
      (.cons (.mk "Addr" Tags.none' true (.strct
        (.cons (.mk "Street" Tags.none' true (.scalar (.sStr "145 Hogarth Ln")))
        (.cons (.mk "Zip" ⟨some "postcode", none, ""⟩ true (.scalar (.sStr "")))
        .nil))))
      (.cons (.mk "Addr2" ⟨some "", none, ""⟩ true (.ptrStructSome
        (.cons (.mk "Street" Tags.none' true (.scalar (.sStr "")))
        (.cons (.mk "Zip" ⟨some "postcode", none, ""⟩ true (.scalar (.sStr "w68rx")))
        .nil))))
      .nil)),
      [⟨"name", .sStr "", "", [0], some "NAME"⟩,
       ⟨"addr-street", .sStr "145 Hogarth Ln", "", [1, 0], some "ADDR_STREET"⟩,
       ⟨"addr-postcode", .sStr "", "", [1, 1], some "ADDR_POSTCODE"⟩,
       ⟨"street", .sStr "", "", [2, 0], some "STREET"⟩,
       ⟨"postcode", .sStr "w68rx", "", [2, 1], some "POSTCODE"⟩]) := by decide

/-! ### Observing a struct through a binding path -/

/-- The field reached from a struct by an index path: descend through
inline-struct and pointer-to-struct fields. -/
def fieldAt : Fields → List Nat → Option GoField
  | _, [] => none
  | fs, [j] => fs.get? j
  | fs, j :: t =>
    match fs.get? j with
    | none => none
    | some f =>
      match f.val with
      | .strct c => fieldAt c t
      | .ptrStructSome c => fieldAt c t
      | _ => none

/-- The field reached from a single field by a path relative to it
(`[]` is the field itself). -/
def subAt (f : GoField) : List Nat → Option GoField
  | [] => some f
  | j :: t =>
    match f.val with
    | .strct c => fieldAt c (j :: t)
    | .ptrStructSome c => fieldAt c (j :: t)
    | _ => none

/-- The scalar held at a path, when the path lands on a scalar field. -/
def scalarAt (fs : Fields) (p : List Nat) : Option SVal :=
  match fieldAt fs p with
  | some f =>
    match f.val with
    | .scalar v => some v
    | _ => none
  | none => none

/-- The scalar held at a path relative to a single field. -/
def subScalarAt (f : GoField) (p : List Nat) : Option SVal :=
  match subAt f p with
  | some g =>
    match g.val with
    | .scalar v => some v
    | _ => none
  | none => none

theorem fieldAt_cons (fs : Fields) (j : Nat) (t : List Nat) :
    fieldAt fs (j :: t) =
      match fs.get? j with
      | none => none
      | some f => subAt f t := by
  cases t with
  | nil =>
    cases h : fs.get? j <;> simp [fieldAt, subAt, h]
  | cons k u =>
    cases h : fs.get? j with
    | none => simp [fieldAt, h]
    | some f => cases f with
      | mk n tg e fv => cases fv <;> simp [fieldAt, subAt, h, GoField.val]

theorem scalarAt_cons (fs : Fields) (j : Nat) (t : List Nat) :
    scalarAt fs (j :: t) =
      match fs.get? j with
      | none => none
      | some f => subScalarAt f t := by
  unfold scalarAt subScalarAt
  rw [fieldAt_cons]
  cases h : fs.get? j <;> simp

theorem get?_cons_zero (f : GoField) (fs : Fields) :
    (Fields.cons f fs).get? 0 = some f := rfl

theorem get?_cons_succ (f : GoField) (fs : Fields) (n : Nat) :
    (Fields.cons f fs).get? (n + 1) = fs.get? n := rfl

theorem get?_modify_self : ∀ (fs : Fields) (j : Nat) (g : GoField → GoField),
    (fs.modify j g).get? j = (fs.get? j).map g
  | .nil, _, _ => by simp [Fields.modify, Fields.get?]
  | .cons _ _, 0, _ => by simp [Fields.modify, Fields.get?]
  | .cons _ rest, j + 1, g => by
    simpa [Fields.modify, Fields.get?] using get?_modify_self rest j g

theorem get?_modify_ne : ∀ (fs : Fields) (j k : Nat) (g : GoField → GoField),
    j ≠ k → (fs.modify j g).get? k = fs.get? k
  | .nil, _, _, _, _ => by simp [Fields.modify, Fields.get?]
  | .cons _ _, 0, 0, _, h => absurd rfl h
  | .cons _ _, 0, _ + 1, _, _ => by simp [Fields.modify, Fields.get?]
  | .cons _ _, _ + 1, 0, _, _ => by simp [Fields.modify, Fields.get?]
  | .cons _ rest, j + 1, k + 1, g, h => by
    simpa [Fields.modify, Fields.get?] using
      get?_modify_ne rest j k g (fun hc => h (by rw [hc]))

/-- A store through one binding leaves every other path unchanged. -/
theorem scalarAt_setAt_ne : ∀ (p : List Nat) (fs : Fields) (q : List Nat) (v : SVal),
    p ≠ q → scalarAt (setAt fs p v) q = scalarAt fs q
  | [], _, _, _, _ => by simp [setAt]
  | [j], fs, [], v, _ => by simp [setAt, scalarAt, fieldAt]
  | j :: t₀ :: t₁, fs, [], v, _ => by simp [setAt, scalarAt, fieldAt]
  | [j], fs, k :: u, v, hne => by
    rw [show setAt fs [j] v = fs.modify j (fun f =>
        match f with
        | .mk n t e (.scalar _) => .mk n t e (.scalar v)
        | g => g) from rfl]
    rw [scalarAt_cons, scalarAt_cons]
    by_cases hjk : j = k
    · subst hjk
      rw [get?_modify_self]
      cases hf : fs.get? j with
      | none => simp
      | some f =>
        cases f with
        | mk n tg e fv =>
          cases u with
          | nil => exact absurd rfl hne
          | cons u₀ u₁ =>
            cases fv <;> simp [subScalarAt, subAt, GoField.val]
    · rw [get?_modify_ne fs j k _ hjk]
  | j :: t₀ :: t₁, fs, k :: u, v, hne => by
    rw [show setAt fs (j :: t₀ :: t₁) v = fs.modify j (fun f =>
        match f with
        | .mk n tg e (.strct c) => .mk n tg e (.strct (setAt c (t₀ :: t₁) v))
        | .mk n tg e (.ptrStructSome c) => .mk n tg e (.ptrStructSome (setAt c (t₀ :: t₁) v))
        | g => g) from rfl]
    rw [scalarAt_cons, scalarAt_cons]
    by_cases hjk : j = k
    · subst hjk
      rw [get?_modify_self]
      cases hf : fs.get? j with
      | none => simp
      | some f =>
        cases f with
        | mk n tg e fv =>
          have hne' : (t₀ :: t₁) ≠ u := fun hc => hne (by rw [hc])
          cases u with
          | nil => cases fv <;> simp [subScalarAt, subAt, GoField.val]
          | cons u₀ u₁ =>
            cases fv <;>
              simp [subScalarAt, subAt, GoField.val, scalarAt] <;>
              simpa [scalarAt] using
                scalarAt_setAt_ne (t₀ :: t₁) _ (u₀ :: u₁) v hne'
    · rw [get?_modify_ne fs j k _ hjk]

/-- A store through a binding that points at a scalar is read back. -/
theorem scalarAt_setAt_self : ∀ (p : List Nat) (fs : Fields) (v w : SVal),
    scalarAt fs p = some w → scalarAt (setAt fs p v) p = some v
  | [], fs, v, w, h => by simp [scalarAt, fieldAt] at h
  | [j], fs, v, w, h => by
    rw [scalarAt_cons] at h
    rw [show setAt fs [j] v = fs.modify j (fun f =>
        match f with
        | .mk n t e (.scalar _) => .mk n t e (.scalar v)
        | g => g) from rfl]
    rw [scalarAt_cons, get?_modify_self]
    cases hf : fs.get? j with
    | none => rw [hf] at h; simp at h
    | some f =>
      rw [hf] at h
      cases f with
      | mk n tg e fv =>
        cases fv <;> simp [subScalarAt, subAt, GoField.val] at h ⊢
  | j :: t₀ :: t₁, fs, v, w, h => by
    rw [scalarAt_cons] at h
    rw [show setAt fs (j :: t₀ :: t₁) v = fs.modify j (fun f =>
        match f with
        | .mk n tg e (.strct c) => .mk n tg e (.strct (setAt c (t₀ :: t₁) v))
        | .mk n tg e (.ptrStructSome c) => .mk n tg e (.ptrStructSome (setAt c (t₀ :: t₁) v))
        | g => g) from rfl]
    rw [scalarAt_cons, get?_modify_self]
    cases hf : fs.get? j with
    | none => rw [hf] at h; simp at h
    | some f =>
      rw [hf] at h
      cases f with
      | mk n tg e fv =>
        cases fv <;> simp [subScalarAt, subAt, GoField.val, scalarAt] at h ⊢ <;>
          simpa [scalarAt] using scalarAt_setAt_self (t₀ :: t₁) _ v w (by simpa [scalarAt] using h)

theorem parseAll_nil (sup : Supplied) (s : Fields) : parseAll [] sup s = s := rfl

theorem parseAll_cons (r : FlagReg) (rs : List FlagReg) (sup : Supplied) (s : Fields) :
    parseAll (r :: rs) sup s =
      parseAll rs sup (match lookupArg sup r.name with
        | some c => setAt s r.path c
        | none => s) := rfl

/-- Parsing flags none of which is bound at `p` leaves the scalar at `p`
unchanged. -/
theorem scalarAt_parseAll_not_mem (sup : Supplied) :
    ∀ (regs : List FlagReg) (s : Fields) (p : List Nat),
      (∀ r ∈ regs, r.path ≠ p) → scalarAt (parseAll regs sup s) p = scalarAt s p := by
  intro regs
  induction regs with
  | nil => intro s p _; rfl
  | cons r rs ih =>
    intro s p hp
    rw [parseAll_cons]
    cases hl : lookupArg sup r.name with
    | none =>
      simpa using ih s p (fun x hx => hp x (List.mem_cons_of_mem r hx))
    | some c =>
      rw [ih _ p (fun x hx => hp x (List.mem_cons_of_mem r hx))]
      exact scalarAt_setAt_ne r.path s p c (hp r (List.mem_cons_self r rs))

/-- The value a bound scalar holds after flag parsing: the supplied
command-line value when present, else whatever it held before parsing. -/
theorem scalarAt_parseAll_mem (sup : Supplied) :
    ∀ (regs : List FlagReg) (s : Fields) (r : FlagReg) (w : SVal),
      r ∈ regs → List.Pairwise (fun a b => a.path ≠ b.path) regs →
      scalarAt s r.path = some w →
      scalarAt (parseAll regs sup s) r.path =
        (match lookupArg sup r.name with
         | some c => some c
         | none => some w) := by
  intro regs
  induction regs with
  | nil => intro s r w hmem; exact absurd hmem (List.not_mem_nil r)
  | cons r₀ rs ih =>
    intro s r w hmem hpw hs
    rw [parseAll_cons]
    rcases List.mem_cons.mp hmem with hr | hr
    · subst hr
      have hrest : ∀ x ∈ rs, x.path ≠ r.path := by
        intro x hx
        exact fun hc => (List.pairwise_cons.mp hpw).1 x hx hc.symm
      cases hl : lookupArg sup r.name with
      | none => simpa [scalarAt_parseAll_not_mem sup rs s r.path hrest] using hs
      | some c =>
        rw [scalarAt_parseAll_not_mem sup rs _ r.path hrest]
        exact scalarAt_setAt_self r.path s c w hs
    · have hne : r₀.path ≠ r.path := (List.pairwise_cons.mp hpw).1 r hr
      have hpw' := (List.pairwise_cons.mp hpw).2
      cases hl : lookupArg sup r₀.name with
      | none => exact ih s r w hr hpw' hs
      | some c =>
        exact ih _ r w hr hpw' (by rw [scalarAt_setAt_ne r₀.path s r.path c hne]; exact hs)

/-! ### The walk invariant -/

theorem assertSame_refl : ∀ v : SVal, assertSame v (.known v) = some v := by
  intro v; cases v <;> rfl

theorem assertSame_known (v w : SVal) (d : GoVal) (h : assertSame v d = some w) :
    d = .known w := by
  cases d with
  | unknown t => cases v <;> simp [assertSame] at h
  | known u =>
    cases v <;> cases u <;> simp [assertSame] at h <;> simp [h]

theorem lookupEnv_not_set (env : Env) (nm : String) (d : GoVal)
    (h : osLookupEnv env nm = none) : lookupEnv env nm d = .ok d := by
  unfold lookupEnv; rw [h]

/-- How a registered default relates to the field's pre-call value and the
environment: with `env:"-"` no lookup happened and the default is the
struct value; otherwise some environment name was consulted and the
default is `lookupEnv`'s answer for it. -/
def EnvResolved (env : Env) (etag : Option String) (v : SVal) (reg : FlagReg) : Prop :=
  (etag = some "-" → reg.envName = none ∧ reg.defaultVal = v) ∧
  (etag ≠ some "-" → ∃ en, reg.envName = some en ∧
     lookupEnv env en (.known v) = .ok (.known reg.defaultVal))

/-- A registration is *good* for original field `f` and walked field `f₁`
at relative path `t`: the path lands on an exported scalar of `f`, the
walked field holds the resolved default there, and the default is
environment-resolved from the original value. -/
def RegGoodSub (env : Env) (f f₁ : GoField) (t : List Nat) (reg : FlagReg) : Prop :=
  ∃ f₀ v₀, subAt f t = some f₀ ∧ f₀.exported = true ∧ f₀.val = .scalar v₀ ∧
    subScalarAt f₁ t = some reg.defaultVal ∧ EnvResolved env f₀.tags.env v₀ reg

/-- The struct-level counterpart of `RegGoodSub`. -/
def RegGoodAt (env : Env) (fs fs₁ : Fields) (p : List Nat) (reg : FlagReg) : Prop :=
  ∃ f₀ v₀, fieldAt fs p = some f₀ ∧ f₀.exported = true ∧ f₀.val = .scalar v₀ ∧
    scalarAt fs₁ p = some reg.defaultVal ∧ EnvResolved env f₀.tags.env v₀ reg

/-- Conclusion of the per-field invariant: every emitted registration has
path `i :: t` with a good relative part, and paths are pairwise distinct. -/
def StepConc (env : Env) (i : Nat) (f f₁ : GoField) (regs : List FlagReg) : Prop :=
  (∀ reg ∈ regs, ∃ t, reg.path = i :: t ∧ RegGoodSub env f f₁ t reg) ∧
  List.Pairwise (fun a b : FlagReg => a.path ≠ b.path) regs

/-- Conclusion of the loop invariant from start index `i`. -/
def FieldsConc (env : Env) (i : Nat) (fs fs₁ : Fields) (regs : List FlagReg) : Prop :=
  (∀ reg ∈ regs, ∃ j t, reg.path = (i + j) :: t ∧ RegGoodAt env fs fs₁ (j :: t) reg) ∧
  List.Pairwise (fun a b : FlagReg => a.path ≠ b.path) regs

theorem StepConc_nil (env : Env) (i : Nat) (f f₁ : GoField) :
    StepConc env i f f₁ [] :=
  ⟨fun reg h => absurd h (List.not_mem_nil reg), List.Pairwise.nil⟩

theorem fieldAt_cons_succ (f : GoField) (rest : Fields) (j : Nat) (t : List Nat) :
    fieldAt (Fields.cons f rest) ((j + 1) :: t) = fieldAt rest (j :: t) := by
  rw [fieldAt_cons, fieldAt_cons, get?_cons_succ]

theorem scalarAt_cons_succ (f : GoField) (rest : Fields) (j : Nat) (t : List Nat) :
    scalarAt (Fields.cons f rest) ((j + 1) :: t) = scalarAt rest (j :: t) := by
  rw [scalarAt_cons, scalarAt_cons, get?_cons_succ]

theorem fieldAt_cons_zero (f : GoField) (rest : Fields) (t : List Nat) :
    fieldAt (Fields.cons f rest) (0 :: t) = subAt f t := by
  rw [fieldAt_cons, get?_cons_zero]

theorem scalarAt_cons_zero (f : GoField) (rest : Fields) (t : List Nat) :
    scalarAt (Fields.cons f rest) (0 :: t) = subScalarAt f t := by
  rw [scalarAt_cons, get?_cons_zero]

theorem subAt_strct (n : String) (tg : Tags) (e : Bool) (c : Fields)
    (j : Nat) (t : List Nat) :
    subAt (.mk n tg e (.strct c)) (j :: t) = fieldAt c (j :: t) := rfl

theorem subAt_ptrSome (n : String) (tg : Tags) (e : Bool) (c : Fields)
    (j : Nat) (t : List Nat) :
    subAt (.mk n tg e (.ptrStructSome c)) (j :: t) = fieldAt c (j :: t) := rfl

theorem subScalarAt_strct (n : String) (tg : Tags) (e : Bool) (c : Fields)
    (j : Nat) (t : List Nat) :
    subScalarAt (.mk n tg e (.strct c)) (j :: t) = scalarAt c (j :: t) := by
  simp [subScalarAt, subAt, scalarAt, GoField.val]

theorem subScalarAt_ptrSome (n : String) (tg : Tags) (e : Bool) (c : Fields)
    (j : Nat) (t : List Nat) :
    subScalarAt (.mk n tg e (.ptrStructSome c)) (j :: t) = scalarAt c (j :: t) := by
  simp [subScalarAt, subAt, scalarAt, GoField.val]

mutual

/-- Per-field walk invariant: every registration a field emits is bound at
`i :: t` where `t` lands on an exported scalar of the field, already holds
the resolved default in the walked field, and its default is
environment-resolved from the pre-walk value; the binding paths are
pairwise distinct. -/
theorem stepField_spec : ∀ (env : Env) (pfx : String) (i : Nat) (f : GoField)
    (f₁ : GoField) (regs : List FlagReg) (tr : List String),
    stepField env pfx i f = .ok (f₁, regs, tr) → StepConc env i f f₁ regs
  | env, pfx, i, .mk name tags false fv, f₁, regs, tr, h => by
    unfold stepField at h
    simp at h
    obtain ⟨h1, h2, h3⟩ := h
    subst h1; subst h2
    exact StepConc_nil env i _ _
  | env, pfx, i, .mk name tags true (.scalar v), f₁, regs, tr, h => by
    unfold stepField at h
    by_cases hflag : tags.flag = some "-"
    · simp [hflag] at h
      obtain ⟨h1, h2, h3⟩ := h
      subst h1; subst h2
      exact StepConc_nil env i _ _
    · simp only [hflag, Bool.not_true, Bool.false_eq_true, if_false, if_neg hflag] at h
      by_cases hdash : tags.env = some "-"
      · simp only [hdash, if_pos, if_true] at h
        rw [assertSame_refl v] at h
        simp at h
        obtain ⟨h1, h2, h3⟩ := h
        subst h1; subst h2
        constructor
        · intro reg hmem
          rw [List.mem_singleton] at hmem
          subst hmem
          refine ⟨[], rfl, ?_⟩
          refine ⟨.mk name tags true (.scalar v), v, rfl, rfl, rfl, rfl, ?_, ?_⟩
          · intro _; exact ⟨rfl, rfl⟩
          · intro hne; exact absurd hdash hne
        · exact List.pairwise_singleton _ _
      · rw [if_neg hdash] at h
        split at h
        · simp at h
        · rename_i d hl
          split at h
          · simp at h
          · rename_i w ha
            simp at h
            obtain ⟨h1, h2, h3⟩ := h
            subst h1; subst h2
            constructor
            · intro reg hmem
              rw [List.mem_singleton] at hmem
              subst hmem
              refine ⟨[], rfl, ?_⟩
              refine ⟨.mk name tags true (.scalar v), v, rfl, rfl, rfl, rfl, ?_, ?_⟩
              · intro hd; exact absurd hd hdash
              · intro _
                refine ⟨envNameFor (flagNameFor pfx name tags.flag) tags.env,
                  by simp [FlagReg.envName, hdash], ?_⟩
                rw [assertSame_known v w d ha] at hl
                exact hl
            · exact List.pairwise_singleton _ _
  | env, pfx, i, .mk name tags true (.strct child), f₁, regs, tr, h => by
    unfold stepField at h
    by_cases hflag : tags.flag = some "-"
    · simp [hflag] at h
      obtain ⟨h1, h2, h3⟩ := h
      subst h1; subst h2
      exact StepConc_nil env i _ _
    · simp only [hflag, Bool.not_true, Bool.false_eq_true, if_false, if_neg hflag] at h
      split at h
      · simp at h
      · rename_i c cregs ctr hg
        simp at h
        obtain ⟨h1, h2, h3⟩ := h
        subst h1; subst h2
        obtain ⟨hgood, hpair⟩ := goFields_spec env child _ 0 c cregs ctr hg
        constructor
        · intro reg hmem
          rw [List.mem_map] at hmem
          obtain ⟨r, hr, hreq⟩ := hmem
          obtain ⟨j, t, hpath, hgoodr⟩ := hgood r hr
          subst hreq
          refine ⟨j :: t, by simp [hpath], ?_⟩
          obtain ⟨f₀, v₀, hat, hex, hval, hsc, henv⟩ := hgoodr
          refine ⟨f₀, v₀, ?_, hex, hval, ?_, ?_⟩
          · rw [subAt_strct]; exact hat
          · rw [subScalarAt_strct]; exact hsc
          · exact henv
        · rw [List.pairwise_map]
          apply hpair.imp
          intro a b hab hc
          apply hab
          simpa using hc
  | env, pfx, i, .mk name tags true (.ptrStructSome child), f₁, regs, tr, h => by
    unfold stepField at h
    by_cases hflag : tags.flag = some "-"
    · simp [hflag] at h
      obtain ⟨h1, h2, h3⟩ := h
      subst h1; subst h2
      exact StepConc_nil env i _ _
    · simp only [hflag, Bool.not_true, Bool.false_eq_true, if_false, if_neg hflag] at h
      split at h
      · simp at h
      · rename_i c cregs ctr hg
        simp at h
        obtain ⟨h1, h2, h3⟩ := h
        subst h1; subst h2
        obtain ⟨hgood, hpair⟩ := goFields_spec env child _ 0 c cregs ctr hg
        constructor
        · intro reg hmem
          rw [List.mem_map] at hmem
          obtain ⟨r, hr, hreq⟩ := hmem
          obtain ⟨j, t, hpath, hgoodr⟩ := hgood r hr
          subst hreq
          refine ⟨j :: t, by simp [hpath], ?_⟩
          obtain ⟨f₀, v₀, hat, hex, hval, hsc, henv⟩ := hgoodr
          refine ⟨f₀, v₀, ?_, hex, hval, ?_, ?_⟩
          · rw [subAt_ptrSome]; exact hat
          · rw [subScalarAt_ptrSome]; exact hsc
          · exact henv
        · rw [List.pairwise_map]
          apply hpair.imp
          intro a b hab hc
          apply hab
          simpa using hc
  | env, pfx, i, .mk name tags true .ptrStructNil, f₁, regs, tr, h => by
    unfold stepField at h
    by_cases hflag : tags.flag = some "-" <;> simp [hflag] at h <;>
      obtain ⟨h1, h2, h3⟩ := h <;> subst h2 <;>
      exact StepConc_nil env i _ _
  | env, pfx, i, .mk name tags true (.ptrOther b), f₁, regs, tr, h => by
    unfold stepField at h
    by_cases hflag : tags.flag = some "-" <;> simp [hflag] at h <;>
      obtain ⟨h1, h2, h3⟩ := h <;> subst h2 <;>
      exact StepConc_nil env i _ _
  | env, pfx, i, .mk name tags true (.other tn), f₁, regs, tr, h => by
    unfold stepField at h
    by_cases hflag : tags.flag = some "-"
    · simp [hflag] at h
      obtain ⟨h1, h2, h3⟩ := h
      subst h2
      exact StepConc_nil env i _ _
    · simp only [hflag, Bool.not_true, Bool.false_eq_true, if_false, if_neg hflag] at h
      by_cases hdash : tags.env = some "-"
      · simp [hdash] at h
      · rw [if_neg hdash] at h
        split at h
        · simp at h
        · simp at h

/-- Loop invariant of the field walk, from start index `i`. -/
theorem goFields_spec : ∀ (env : Env) (fs : Fields) (pfx : String) (i : Nat)
    (fs₁ : Fields) (regs : List FlagReg) (tr : List String),
    goFields env fs pfx i = .ok (fs₁, regs, tr) → FieldsConc env i fs fs₁ regs
  | env, .nil, pfx, i, fs₁, regs, tr, h => by
    unfold goFields at h
    simp at h
    obtain ⟨h1, h2, h3⟩ := h
    subst h2
    exact ⟨fun reg hm => absurd hm (List.not_mem_nil reg), List.Pairwise.nil⟩
  | env, .cons f rest, pfx, i, fs₁, regs, tr, h => by
    unfold goFields at h
    split at h
    · simp at h
    · rename_i f' regs₁ tr₁ hs
      split at h
      · simp at h
      · rename_i rest' regs₂ tr₂ hr
        simp at h
        obtain ⟨h1, h2, h3⟩ := h
        subst h1; subst h2
        obtain ⟨good₁, pair₁⟩ := stepField_spec env pfx i f f' regs₁ tr₁ hs
        obtain ⟨good₂, pair₂⟩ := goFields_spec env rest pfx (i + 1) rest' regs₂ tr₂ hr
        constructor
        · intro reg hmem
          rcases List.mem_append.mp hmem with hm | hm
          · obtain ⟨t, hpath, hgood⟩ := good₁ reg hm
            refine ⟨0, t, by simpa using hpath, ?_⟩
            obtain ⟨f₀, v₀, hat, hex, hval, hsc, henv⟩ := hgood
            exact ⟨f₀, v₀, by rw [fieldAt_cons_zero]; exact hat, hex, hval,
                   by rw [scalarAt_cons_zero]; exact hsc, henv⟩
          · obtain ⟨j, t, hpath, hgood⟩ := good₂ reg hm
            refine ⟨j + 1, t, by rw [hpath]; congr 1; omega, ?_⟩
            obtain ⟨f₀, v₀, hat, hex, hval, hsc, henv⟩ := hgood
            exact ⟨f₀, v₀, by rw [fieldAt_cons_succ]; exact hat, hex, hval,
                   by rw [scalarAt_cons_succ]; exact hsc, henv⟩
        · rw [List.pairwise_append]
          refine ⟨pair₁, pair₂, ?_⟩
          intro a ha b hb
          obtain ⟨ta, hpa, _⟩ := good₁ a ha
          obtain ⟨jb, tb, hpb, _⟩ := good₂ b hb
          rw [hpa, hpb]
          intro hc
          have : i = i + 1 + jb := (List.cons.injEq _ _ _ _ ▸ hc).1
          omega

end

/-- The walk invariant at the root: every registration of a successful
`readConfig` is bound at a nonempty path landing on an exported scalar of
the original struct, the walked struct holds its resolved default there,
the default is environment-resolved, and binding paths are pairwise
distinct. -/
theorem readConfig_spec (env : Env) (s s₁ : Fields)
    (regs : List FlagReg) (tr : List String)
    (h : readConfig (.ptrToStruct s) env = .ok (s₁, regs, tr)) :
    (∀ reg ∈ regs, (∃ j t, reg.path = j :: t) ∧ RegGoodAt env s s₁ reg.path reg) ∧
    List.Pairwise (fun a b : FlagReg => a.path ≠ b.path) regs := by
  unfold readConfig reflectStruct at h
  replace h : (match goFields env s "" 0 with
    | Except.ok r => Outcome.ok r
    | Except.error e => Outcome.err e) = Outcome.ok (s₁, regs, tr) := h
  cases hg : goFields env s "" 0 with
  | error e => rw [hg] at h; simp at h
  | ok res =>
    obtain ⟨s', regs', tr'⟩ := res
    rw [hg] at h
    simp [Outcome.ok.injEq] at h
    obtain ⟨h1, h2, h3⟩ := h
    subst h1; subst h2
    obtain ⟨hgood, hpair⟩ := goFields_spec env s "" 0 s' regs' tr' hg
    refine ⟨?_, hpair⟩
    intro reg hmem
    obtain ⟨j, t, hpath, hgoodr⟩ := hgood reg hmem
    rw [Nat.zero_add] at hpath
    exact ⟨⟨j, t, hpath⟩, by rw [hpath]; exact hgoodr⟩

/-- The "Basic" scenario environment (`SWIMMER=true`, `DEBUG=true`). -/
def basicEnvT : Env := [("SWIMMER", "true"), ("DEBUG", "true")]

/-- The "Basic" scenario argument vector (`-last-name Smith -age 7`). -/
def basicSupT : Supplied := [("last-name", .sStr "Smith"), ("age", .sInt 7)]

/-- `myCfgBasic` after the walk alone (resolved defaults written, no
argument parsing yet): only Swimmer changed, to `true`. -/
def basicWalked : Fields :=
  .cons (.mk "FirstName" ⟨some "first_name", none, "first name of user"⟩ true
          (.scalar (.sStr "John")))
  (.cons (.mk "LastName" ⟨none, none, "last name of user"⟩ true (.scalar (.sStr "")))
  (.cons (.mk "Age" ⟨none, none, "age in dog years"⟩ true (.scalar (.sInt 0)))
  (.cons (.mk "Swimmer" Tags.none' true (.scalar (.sBool true)))
  (.cons (.mk "Debug" ⟨none, some "-", ""⟩ true (.scalar (.sBool false)))
  .nil))))

/-- The registration list of the "Basic" scenario. -/
def basicRegs : List FlagReg :=
  [⟨"first_name", .sStr "John", "first name of user", [0], some "FIRST_NAME"⟩,
   ⟨"last-name", .sStr "", "last name of user", [1], some "LAST_NAME"⟩,
   ⟨"age", .sInt 0, "age in dog years", [2], some "AGE"⟩,
   ⟨"swimmer", .sBool true, "", [3], some "SWIMMER"⟩,
   ⟨"debug", .sBool false, "", [4], none⟩]

/-- The environment names consulted in the "Basic" scenario (Debug's is
absent: `env:"-"`). -/
def basicTrace : List String := ["FIRST_NAME", "LAST_NAME", "AGE", "SWIMMER"]

example : readConfig (.ptrToStruct myCfgBasic) basicEnvT =
    .ok (basicWalked, basicRegs, basicTrace) := by decide

/-- C9: after a successful walk (`readConfig` returning without error),
every registered scalar field of the walked struct already holds its
resolved default — the parsed environment value when its environment
variable was consulted and set, else its pre-call struct value — before
any argument-vector parsing happens, because registration writes the
resolved default through the bound field reference. -/
theorem c9_walk_writes_resolved_defaults (env : Env) (s s₁ : Fields)
    (regs : List FlagReg) (tr : List String)
    (h : readConfig (.ptrToStruct s) env = .ok (s₁, regs, tr)) :
    ∀ reg ∈ regs, ∃ f₀ v₀,
      fieldAt s reg.path = some f₀ ∧ f₀.val = .scalar v₀ ∧
      scalarAt s₁ reg.path = some reg.defaultVal ∧
      (reg.envName = none → reg.defaultVal = v₀) ∧
      (∀ en, reg.envName = some en →
        (osLookupEnv env en = none → reg.defaultVal = v₀) ∧
        (∀ raw, osLookupEnv env en = some raw →
          lookupEnv env en (.known v₀) = .ok (.known reg.defaultVal))) := by
  intro reg hmem
  obtain ⟨⟨j, t, hpath⟩, f₀, v₀, hat, hex, hval, hsc, henv1, henv2⟩ :=
    (readConfig_spec env s s₁ regs tr h).1 reg hmem
  refine ⟨f₀, v₀, hat, hval, hsc, ?_, ?_⟩
  · intro hnone
    by_cases hd : f₀.tags.env = some "-"
    · exact (henv1 hd).2
    · obtain ⟨en, hen, _⟩ := henv2 hd
      rw [hnone] at hen
      exact absurd hen (by simp)
  · intro en hen
    by_cases hd : f₀.tags.env = some "-"
    · rw [(henv1 hd).1] at hen
      exact absurd hen (by simp)
    · obtain ⟨en', hen', hlook⟩ := henv2 hd
      rw [hen] at hen'
      have hee : en = en' := by simpa using hen'
      subst hee
      constructor
      · intro hunset
        rw [lookupEnv_not_set env en (.known v₀) hunset] at hlook
        have h2 := hlook
        simp at h2
        exact h2.symm
      · intro raw _
        exact hlook

/-- Witness for C9 on the repository's "Basic" scenario: the Swimmer
registration (default resolved to `true` from `SWIMMER=true`). -/
theorem c9_walk_writes_resolved_defaults_witness :
    ∃ f₀ v₀,
      fieldAt myCfgBasic [3] = some f₀ ∧ f₀.val = .scalar v₀ ∧
      scalarAt basicWalked [3] = some (SVal.sBool true) ∧
      ((some "SWIMMER" : Option String) = none → SVal.sBool true = v₀) ∧
      (∀ en, (some "SWIMMER" : Option String) = some en →
        (osLookupEnv basicEnvT en = none → SVal.sBool true = v₀) ∧
        (∀ raw, osLookupEnv basicEnvT en = some raw →
          lookupEnv basicEnvT en (.known v₀) = .ok (.known (.sBool true)))) := by
  have h := c9_walk_writes_resolved_defaults basicEnvT myCfgBasic basicWalked
    basicRegs basicTrace (by decide)
    ⟨"swimmer", .sBool true, "", [3], some "SWIMMER"⟩ (by decide)
  simpa using h

/-- C1: strict precedence for every scalar field bound by the walk.  After
`ReadConfig`, a bound field equals the explicitly supplied command-line
value when there is one; otherwise, when its environment lookup was not
suppressed and its environment variable is set, it equals the parsed
environment value; otherwise it keeps its pre-call struct value.  A field
annotated `env:"-"` has no consulted environment name (the lookup is
skipped entirely), so with no argument it keeps the struct value no matter
what is in the environment. -/
theorem c1_precedence (env : Env) (sup : Supplied) (s s₂ : Fields)
    (regs : List FlagReg)
    (h : ReadConfig (.ptrToStruct s) env sup = .ok (s₂, regs)) :
    ∀ reg ∈ regs, ∃ f₀ v₀,
      fieldAt s reg.path = some f₀ ∧ f₀.exported = true ∧ f₀.val = .scalar v₀ ∧
      (f₀.tags.env = some "-" ↔ reg.envName = none) ∧
      (∀ c, lookupArg sup reg.name = some c → scalarAt s₂ reg.path = some c) ∧
      (lookupArg sup reg.name = none →
        (reg.envName = none → scalarAt s₂ reg.path = some v₀) ∧
        (∀ en, reg.envName = some en →
          (osLookupEnv env en = none → scalarAt s₂ reg.path = some v₀) ∧
          (∀ raw, osLookupEnv env en = some raw →
            ∃ w, lookupEnv env en (.known v₀) = .ok (.known w) ∧
              scalarAt s₂ reg.path = some w))) := by
  unfold ReadConfig at h
  cases hrc : readConfig (.ptrToStruct s) env with
  | err e => rw [hrc] at h; simp at h
  | panic m => rw [hrc] at h; simp at h
  | ok res =>
    obtain ⟨s₁, regs', tr⟩ := res
    rw [hrc] at h
    simp at h
    obtain ⟨h1, h2⟩ := h
    subst h2
    obtain ⟨hgoods, hpair⟩ := readConfig_spec env s s₁ regs' tr hrc
    intro reg hmem
    obtain ⟨⟨j, t, hpath⟩, f₀, v₀, hat, hex, hval, hsc, henv1, henv2⟩ :=
      hgoods reg hmem
    have hparse := scalarAt_parseAll_mem sup regs' s₁ reg reg.defaultVal hmem hpair hsc
    rw [h1] at hparse
    refine ⟨f₀, v₀, hat, hex, hval, ?_, ?_, ?_⟩
    · constructor
      · intro hd; exact (henv1 hd).1
      · intro hn
        by_cases hd : f₀.tags.env = some "-"
        · exact hd
        · obtain ⟨en, hen, _⟩ := henv2 hd
          rw [hn] at hen
          exact absurd hen (by simp)
    · intro c hc
      rw [hc] at hparse
      exact hparse
    · intro hnone
      rw [hnone] at hparse
      constructor
      · intro hn
        have hd : f₀.tags.env = some "-" := by
          by_cases hd : f₀.tags.env = some "-"
          · exact hd
          · obtain ⟨en, hen, _⟩ := henv2 hd
            rw [hn] at hen
            exact absurd hen (by simp)
        rw [hparse, (henv1 hd).2]
      · intro en hen
        have hd : f₀.tags.env ≠ some "-" := by
          intro hdd
          rw [(henv1 hdd).1] at hen
          exact absurd hen (by simp)
        obtain ⟨en', hen', hlook⟩ := henv2 hd
        have hee : en = en' := by rw [hen] at hen'; simpa using hen'
        subst hee
        constructor
        · intro hunset
          rw [lookupEnv_not_set env en _ hunset] at hlook
          have hvw : v₀ = reg.defaultVal := by simpa using hlook
          rw [hparse, ← hvw]
        · intro raw _
          exact ⟨reg.defaultVal, hlook, hparse⟩

/-- `myCfgBasic` after the full load (walk and argument parsing):
LastName and Age now carry the supplied command-line values. -/
def basicOut : Fields :=
  .cons (.mk "FirstName" ⟨some "first_name", none, "first name of user"⟩ true
          (.scalar (.sStr "John")))
  (.cons (.mk "LastName" ⟨none, none, "last name of user"⟩ true (.scalar (.sStr "Smith")))
  (.cons (.mk "Age" ⟨none, none, "age in dog years"⟩ true (.scalar (.sInt 7)))
  (.cons (.mk "Swimmer" Tags.none' true (.scalar (.sBool true)))
  (.cons (.mk "Debug" ⟨none, some "-", ""⟩ true (.scalar (.sBool false)))
  .nil))))

/-- Witness for C1 on the "Basic" scenario, at the Age registration: the
supplied `-age 7` wins over the unset AGE variable and the struct default. -/
theorem c1_precedence_witness :
    ∃ f₀ v₀,
      fieldAt myCfgBasic [2] = some f₀ ∧ f₀.exported = true ∧
      f₀.val = .scalar v₀ ∧
      (f₀.tags.env = some "-" ↔ (some "AGE" : Option String) = none) ∧
      (∀ c, lookupArg basicSupT "age" = some c → scalarAt basicOut [2] = some c) ∧
      (lookupArg basicSupT "age" = none →
        ((some "AGE" : Option String) = none → scalarAt basicOut [2] = some v₀) ∧
        (∀ en, (some "AGE" : Option String) = some en →
          (osLookupEnv basicEnvT en = none → scalarAt basicOut [2] = some v₀) ∧
          (∀ raw, osLookupEnv basicEnvT en = some raw →
            ∃ w, lookupEnv basicEnvT en (.known v₀) = .ok (.known w) ∧
              scalarAt basicOut [2] = some w))) := by
  have h := c1_precedence basicEnvT basicSupT myCfgBasic basicOut basicRegs
    (by decide) ⟨"age", .sInt 0, "age in dog years", [2], some "AGE"⟩ (by decide)
  simpa using h

/-- Counterexample to C2 as stated: a non-null pointer to a non-struct
(`*int`, say) does not produce the InvalidArgument error — it passes the
`Kind() != Ptr || IsNil()` guard of line 100 and the traversal panics in
`reflect.Value.NumField` at line 114. -/
theorem c2_counterexample :
    readConfig (.ptrToOther "int") [] ≠ .err .invalidArgument ∧
    readConfig (.ptrToOther "int") [] =
      .panic "reflect: call of reflect.Value.NumField on int Value" := by
  exact ⟨by decide, by decide⟩

/-- C2 amended: a non-pointer argument and a nil pointer are rejected with
the InvalidArgument error before any traversal; a non-null pointer to a
non-struct is not rejected — it reaches the traversal, which panics
(naming the offending reflect kind) instead of returning an error. -/
theorem c2_invalid_argument (env : Env) (k : String) :
    readConfig .notPtr env = .err .invalidArgument ∧
    readConfig .nilPtr env = .err .invalidArgument ∧
    readConfig (.ptrToOther k) env =
      .panic ("reflect: call of reflect.Value.NumField on " ++ k ++ " Value") :=
  ⟨rfl, rfl, rfl⟩

/-- C3: for a nested composite field (inline struct or non-nil pointer to
struct) that is not skipped, the children are walked under prefix
`flagName ++ "-"`, except that an explicitly present and empty flag tag
makes the child prefix empty, so the subtree's registrations are exactly
those of walking the child under that prefix (with the parent index
prepended to each binding path). -/
theorem c3_child_prefix (env : Env) (pfx : String) (i : Nat) (name : String)
    (tags : Tags) (child c : Fields) (cregs : List FlagReg) (ctr : List String)
    (hflag : tags.flag ≠ some "-")
    (hg : reflectStruct env child
        (if tags.flag = some "" then "" else flagNameFor pfx name tags.flag ++ "-") =
      .ok (c, cregs, ctr)) :
    stepField env pfx i (.mk name tags true (.strct child)) =
      .ok (.mk name tags true (.strct c),
           cregs.map (fun r => { r with path := i :: r.path }), ctr) ∧
    stepField env pfx i (.mk name tags true (.ptrStructSome child)) =
      .ok (.mk name tags true (.ptrStructSome c),
           cregs.map (fun r => { r with path := i :: r.path }), ctr) := by
  have hg' : goFields env child
      (if tags.flag = some "" then "" else flagNameFor pfx name tags.flag ++ "-") 0 =
      .ok (c, cregs, ctr) := hg
  constructor <;>
    simp only [stepField, Bool.not_true, Bool.false_eq_true, if_false,
      if_neg hflag, hg']

/-- Witness for C3 on the "Nested structs" scenario: the `Addr2` field
(pointer to `Ss2`, flag tag explicitly empty) walks its children with the
empty prefix, yielding flags `street` and `postcode` — not `addr2-street`. -/
theorem c3_child_prefix_witness :
    stepField [("ADDR_STREET", "145 Hogarth Ln"), ("POSTCODE", "w68rx")] "" 2
        (.mk "Addr2" ⟨some "", none, ""⟩ true (.strct ss2Fields)) =
      .ok (.mk "Addr2" ⟨some "", none, ""⟩ true (.strct
            (.cons (.mk "Street" Tags.none' true (.scalar (.sStr "")))
            (.cons (.mk "Zip" ⟨some "postcode", none, ""⟩ true (.scalar (.sStr "w68rx")))
            .nil))),
           [⟨"street", .sStr "", "", [2, 0], some "STREET"⟩,
            ⟨"postcode", .sStr "w68rx", "", [2, 1], some "POSTCODE"⟩],
           ["STREET", "POSTCODE"]) ∧
    stepField [("ADDR_STREET", "145 Hogarth Ln"), ("POSTCODE", "w68rx")] "" 2
        (.mk "Addr2" ⟨some "", none, ""⟩ true (.ptrStructSome ss2Fields)) =
      .ok (.mk "Addr2" ⟨some "", none, ""⟩ true (.ptrStructSome
            (.cons (.mk "Street" Tags.none' true (.scalar (.sStr "")))
            (.cons (.mk "Zip" ⟨some "postcode", none, ""⟩ true (.scalar (.sStr "w68rx")))
            .nil))),
           [⟨"street", .sStr "", "", [2, 0], some "STREET"⟩,
            ⟨"postcode", .sStr "w68rx", "", [2, 1], some "POSTCODE"⟩],
           ["STREET", "POSTCODE"]) := by
  have h := c3_child_prefix [("ADDR_STREET", "145 Hogarth Ln"), ("POSTCODE", "w68rx")]
    "" 2 "Addr2" ⟨some "", none, ""⟩ ss2Fields
    (.cons (.mk "Street" Tags.none' true (.scalar (.sStr "")))
     (.cons (.mk "Zip" ⟨some "postcode", none, ""⟩ true (.scalar (.sStr "w68rx")))
     .nil))
    [⟨"street", .sStr "", "", [0], some "STREET"⟩,
     ⟨"postcode", .sStr "w68rx", "", [1], some "POSTCODE"⟩]
    ["STREET", "POSTCODE"] (by decide) (by decide)
  simpa using h

/-- C4: a scalar field with neither a flag nor an env tag is registered
under flag name `toKebab(prefix) ++ toKebab(fieldName)`, and the
environment name consulted for it is `toScreamingSnake` of that flag name. -/
theorem c4_derived_names (env : Env) (pfx : String) (i : Nat)
    (name usage : String) (v : SVal) (f₁ : GoField)
    (regs : List FlagReg) (tr : List String)
    (h : stepField env pfx i (.mk name ⟨none, none, usage⟩ true (.scalar v)) =
      .ok (f₁, regs, tr)) :
    ∃ d, regs = [⟨toKebab pfx ++ toKebab name, d, usage, [i],
      some (toScreamingSnake (toKebab pfx ++ toKebab name))⟩] ∧
      tr = [toScreamingSnake (toKebab pfx ++ toKebab name)] := by
  unfold stepField at h
  simp only [Bool.not_true, Bool.false_eq_true, if_false] at h
  rw [if_neg (by simp : ¬ (Tags.flag ⟨none, none, usage⟩ = some "-"))] at h
  rw [if_neg (by simp : ¬ (Tags.env ⟨none, none, usage⟩ = some "-"))] at h
  split at h
  · simp at h
  · rename_i d hl
    split at h
    · simp at h
    · rename_i w ha
      simp at h
      obtain ⟨h1, h2, h3⟩ := h
      subst h2; subst h3
      exact ⟨w, by simp [flagNameFor, envNameFor], by simp [flagNameFor, envNameFor]⟩

/-- Witness for C4: the LastName field of the "Basic" scenario under the
empty prefix: flag `last-name`, environment name `LAST_NAME`. -/
theorem c4_derived_names_witness :
    ∃ d, [(⟨"last-name", .sStr "", "last name of user", [1], some "LAST_NAME"⟩ : FlagReg)] =
        [⟨toKebab "" ++ toKebab "LastName", d, "last name of user", [1],
          some (toScreamingSnake (toKebab "" ++ toKebab "LastName"))⟩] ∧
      ["LAST_NAME"] = [toScreamingSnake (toKebab "" ++ toKebab "LastName")] := by
  have h := c4_derived_names basicEnvT "" 1 "LastName" "last name of user"
    (.sStr "") (.mk "LastName" ⟨none, none, "last name of user"⟩ true (.scalar (.sStr "")))
    [⟨"last-name", .sStr "", "last name of user", [1], some "LAST_NAME"⟩]
    ["LAST_NAME"] (by decide)
  exact h

theorem goFields_nil (env : Env) (pfx : String) (i : Nat) :
    goFields env .nil pfx i = .ok (.nil, [], []) := rfl

theorem goFields_cons (env : Env) (f : GoField) (rest : Fields)
    (pfx : String) (i : Nat) :
    goFields env (.cons f rest) pfx i =
      (match stepField env pfx i f with
       | .error e => .error e
       | .ok (f', r1, t1) =>
         match goFields env rest pfx (i + 1) with
         | .error e => .error e
         | .ok (rest', r2, t2) => .ok (.cons f' rest', r1 ++ r2, t1 ++ t2)) := rfl

/-- Splitting the field loop over a concatenation: the suffix is processed
only if the prefix succeeded, starting at the shifted index. -/
theorem goFields_append : ∀ (env : Env) (pre rest : Fields) (pfx : String) (i : Nat),
    goFields env (pre.append rest) pfx i =
      (match goFields env pre pfx i with
       | .error e => .error e
       | .ok (pre', r1, t1) =>
         match goFields env rest pfx (i + pre.length) with
         | .error e => .error e
         | .ok (rest', r2, t2) => .ok (pre'.append rest', r1 ++ r2, t1 ++ t2))
  | env, .nil, rest, pfx, i => by
    show goFields env rest pfx i = _
    rw [goFields_nil]
    cases h : goFields env rest pfx (i + Fields.length .nil) with
    | error e => simpa [Fields.length] using h
    | ok res =>
      obtain ⟨rest', r2, t2⟩ := res
      simp only [Fields.length, Nat.add_zero] at h
      simp [h, Fields.append]
  | env, .cons f pre, rest, pfx, i => by
    rw [show (Fields.cons f pre).append rest = Fields.cons f (pre.append rest) from rfl]
    rw [goFields_cons env f (pre.append rest) pfx i]
    rw [goFields_cons env f pre pfx i]
    cases hs : stepField env pfx i f with
    | error e => simp
    | ok res₁ =>
      obtain ⟨f', r1, t1⟩ := res₁
      rw [goFields_append env pre rest pfx (i + 1)]
      have hlen : i + Fields.length (.cons f pre) = i + 1 + pre.length := by
        simp [Fields.length]; omega
      rw [hlen]
      cases hp : goFields env pre pfx (i + 1) with
      | error e => simp
      | ok res₂ =>
        obtain ⟨pre', r2, t2⟩ := res₂
        cases hr : goFields env rest pfx (i + 1 + pre.length) with
        | error e => simp
        | ok res₃ =>
          obtain ⟨rest', r3, t3⟩ := res₃
          simp [Fields.append]

/-- Classifier for the spec's UnsupportedTypeError kind (§7): both the
registration switch's "unsuported struct type" error and `lookupEnv`'s
default-case error fall under it. -/
def GoErr.isUnsupportedType : GoErr → Bool
  | .unsupportedStructType _ => true
  | .unsupportedLookup _ _ => true
  | _ => false

/-- C5: a field of an unsupported type that is not ignored makes the walk
abort with an unsupported-type error carrying the offending type (the
registration switch's error, or `lookupEnv`'s default-case error when the
field's environment variable happens to be set); with `flag:"-"` the same
field is skipped: no error, no registration, no environment lookup, and
any walk containing it aborts exactly when one without it would. -/
theorem c5_unsupported_type (env : Env) (pfx : String) (i : Nat)
    (name : String) (tags : Tags) (tn : String) :
    (tags.flag ≠ some "-" →
      ∃ e, stepField env pfx i (.mk name tags true (.other tn)) = .error e ∧
        e.isUnsupportedType = true ∧
        (e = .unsupportedStructType tn ∨ ∃ en, e = .unsupportedLookup en tn)) ∧
    (tags.flag ≠ some "-" →
      ∀ (pre post : Fields) (pre' : Fields) (r : List FlagReg) (t : List String),
        goFields env pre pfx i = .ok (pre', r, t) →
        ∃ e, goFields env
            (pre.append (.cons (.mk name tags true (.other tn)) post)) pfx i =
          .error e ∧ e.isUnsupportedType = true) ∧
    (tags.flag = some "-" →
      stepField env pfx i (.mk name tags true (.other tn)) =
        .ok (.mk name tags true (.other tn), [], [])) := by
  have hstep : ∀ it : Nat, tags.flag ≠ some "-" →
      ∃ e, stepField env pfx it (.mk name tags true (.other tn)) = .error e ∧
        e.isUnsupportedType = true ∧
        (e = .unsupportedStructType tn ∨ ∃ en, e = .unsupportedLookup en tn) := by
    intro it hflag
    unfold stepField
    simp only [Bool.not_true, Bool.false_eq_true, if_false, if_neg hflag]
    by_cases hdash : tags.env = some "-"
    · rw [if_pos hdash]
      exact ⟨.unsupportedStructType tn, rfl, rfl, Or.inl rfl⟩
    · rw [if_neg hdash]
      cases hl : lookupEnv env (envNameFor (flagNameFor pfx name tags.flag) tags.env)
          (.unknown tn) with
      | error e =>
        have he : e = .unsupportedLookup
            (envNameFor (flagNameFor pfx name tags.flag) tags.env) tn := by
          unfold lookupEnv at hl
          cases hos : osLookupEnv env
              (envNameFor (flagNameFor pfx name tags.flag) tags.env) with
          | none => rw [hos] at hl; simp at hl
          | some raw =>
            rw [hos] at hl
            simp at hl
            exact hl.symm
        exact ⟨e, rfl, by rw [he]; rfl, Or.inr ⟨_, he⟩⟩
      | ok d =>
        exact ⟨.unsupportedStructType tn, rfl, rfl, Or.inl rfl⟩
  refine ⟨hstep i, ?_, ?_⟩
  · intro hflag pre post pre' r t hpre
    obtain ⟨e, he, hkind, _⟩ := hstep (i + pre.length) hflag
    refine ⟨e, ?_, hkind⟩
    have hcons : goFields env (.cons (.mk name tags true (.other tn)) post) pfx
        (i + pre.length) = .error e := by
      rw [goFields_cons, he]
    rw [goFields_append, hpre, hcons]
  · intro hflag
    unfold stepField
    simp [hflag]

/-- Witness for C5: an `*http.Client`-like field.  Ignored with `flag:"-"`
it is skipped; without the tag (and a one-field prefix walked fine) the
whole walk aborts with the unsupported-type error naming `*http.Client`. -/
theorem c5_unsupported_type_witness :
    (∃ e, stepField [] "" 1 (.mk "Client" Tags.none' true (.other "*http.Client")) =
        .error e ∧ e.isUnsupportedType = true ∧
        (e = .unsupportedStructType "*http.Client" ∨
         ∃ en, e = .unsupportedLookup en "*http.Client")) ∧
    (∃ e, goFields []
        ((Fields.cons (.mk "IntT" Tags.none' true (.scalar (.sInt64 123456789))) .nil).append
          (.cons (.mk "Client" Tags.none' true (.other "*http.Client")) .nil)) "" 1 =
      .error e ∧ e.isUnsupportedType = true) ∧
    stepField [] "" 1 (.mk "Client" ⟨some "-", none, ""⟩ true (.other "*http.Client")) =
      .ok (.mk "Client" ⟨some "-", none, ""⟩ true (.other "*http.Client"), [], []) := by
  have h1 := c5_unsupported_type [] "" 1 "Client" Tags.none' "*http.Client"
  have h2 := c5_unsupported_type [] "" 1 "Client" ⟨some "-", none, ""⟩ "*http.Client"
  refine ⟨h1.1 (by decide), ?_, h2.2.2 (by decide)⟩
  exact h1.2.1 (by decide) (.cons (.mk "IntT" Tags.none' true (.scalar (.sInt64 123456789))) .nil)
    (.cons (.mk "Client" Tags.none' true (.other "*http.Client")) .nil)
    (.cons (.mk "IntT" Tags.none' true (.scalar (.sInt64 123456789))) .nil)
    [⟨"int-t", .sInt64 123456789, "", [1], some "INT_T"⟩] ["INT_T"] (by decide)

/-- C6: the traversal is fail-fast and wraps errors with a trail of field
identifiers.  First conjunct: once the fields before `f` have been walked
without error, an error at `f` is the result of the whole loop — whatever
fields follow, they are never processed.  Second conjunct: an error inside
a nested composite comes back wrapped as `fieldFailure e name` with the
enclosing field's identifier, so an error at depth k accumulates one wrap
per recursion level above the failure. -/
theorem c6_fail_fast_wrapped :
    (∀ (env : Env) (pfx : String) (i : Nat) (pre : Fields) (f : GoField)
       (post pre' : Fields) (r : List FlagReg) (t : List String) (e : GoErr),
       goFields env pre pfx i = .ok (pre', r, t) →
       stepField env pfx (i + pre.length) f = .error e →
       goFields env (pre.append (.cons f post)) pfx i = .error e) ∧
    (∀ (env : Env) (pfx : String) (i : Nat) (name : String) (tags : Tags)
       (child : Fields) (e : GoErr), tags.flag ≠ some "-" →
       reflectStruct env child
         (if tags.flag = some "" then ""
          else flagNameFor pfx name tags.flag ++ "-") = .error e →
       stepField env pfx i (.mk name tags true (.strct child)) =
         .error (.fieldFailure e name) ∧
       stepField env pfx i (.mk name tags true (.ptrStructSome child)) =
         .error (.fieldFailure e name)) := by
  constructor
  · intro env pfx i pre f post pre' r t e hpre he
    have hcons : goFields env (.cons f post) pfx (i + pre.length) = .error e := by
      rw [goFields_cons, he]
    rw [goFields_append, hpre, hcons]
  · intro env pfx i name tags child e hflag hg
    have hg' : goFields env child
        (if tags.flag = some "" then ""
         else flagNameFor pfx name tags.flag ++ "-") 0 = .error e := hg
    constructor <;>
      simp only [stepField, Bool.not_true, Bool.false_eq_true, if_false,
        if_neg hflag, hg']

/-- Witness for C6: with `AGE=abc` set, the Age field's environment parse
fails; after a clean first field the whole loop stops with that parse
error (a later field is never reached), and the same failure inside a
nested `Addr` struct comes back wrapped as a fieldFailure naming `Addr`. -/
theorem c6_fail_fast_wrapped_witness :
    goFields [("AGE", "abc")]
        ((Fields.cons (.mk "Name" Tags.none' true (.scalar (.sStr ""))) .nil).append
          (.cons (.mk "Age" Tags.none' true (.scalar (.sInt 0)))
           (.cons (.mk "Debug" Tags.none' true (.scalar (.sBool false))) .nil))) "" 0 =
      .error (.parseErr "Atoi" "AGE" "abc") ∧
    stepField [("ADDR_AGE", "abc")] "" 0
        (.mk "Addr" Tags.none' true (.strct
          (.cons (.mk "Age" Tags.none' true (.scalar (.sInt 0))) .nil))) =
      .error (.fieldFailure (.parseErr "Atoi" "ADDR_AGE" "abc") "Addr") := by
  constructor
  · exact c6_fail_fast_wrapped.1 [("AGE", "abc")] "" 0
      (.cons (.mk "Name" Tags.none' true (.scalar (.sStr ""))) .nil)
      (.mk "Age" Tags.none' true (.scalar (.sInt 0)))
      (.cons (.mk "Debug" Tags.none' true (.scalar (.sBool false))) .nil)
      (.cons (.mk "Name" Tags.none' true (.scalar (.sStr ""))) .nil)
      [⟨"name", .sStr "", "", [0], some "NAME"⟩] ["NAME"]
      (.parseErr "Atoi" "AGE" "abc") (by decide) (by decide)
  · exact (c6_fail_fast_wrapped.2 [("ADDR_AGE", "abc")] "" 0 "Addr" Tags.none'
      (.cons (.mk "Age" Tags.none' true (.scalar (.sInt 0))) .nil)
      (.parseErr "Atoi" "ADDR_AGE" "abc") (by decide) (by decide)).1

/-- C7: resolving an environment string against a boolean default never
fails: when the variable is set, the result is `true` exactly when the raw
value equals `true` or `1` up to letter case, and `false` for everything
else; when it is unset the default comes back, also without error. -/
theorem c7_bool_env_resolution (env : Env) (nm : String) (b : Bool) :
    (∃ r, lookupEnv env nm (.known (.sBool b)) = .ok r) ∧
    (∀ raw, osLookupEnv env nm = some raw →
      lookupEnv env nm (.known (.sBool b)) =
        .ok (.known (.sBool (goToUpper raw == goToUpper "true" ||
                             goToUpper raw == goToUpper "1")))) := by
  constructor
  · cases h : osLookupEnv env nm with
    | none => exact ⟨.known (.sBool b), lookupEnv_not_set env nm _ h⟩
    | some raw =>
      refine ⟨.known (.sBool (goToUpper raw == "TRUE" || goToUpper raw == "1")), ?_⟩
      unfold lookupEnv
      rw [h]
  · intro raw h
    unfold lookupEnv
    rw [h]
    rw [show goToUpper "true" = "TRUE" by decide, show goToUpper "1" = "1" by decide]

/-- Witness for C7: `DEBUG=tRuE` resolves to `true` against default
`false`. -/
theorem c7_bool_env_resolution_witness :
    lookupEnv [("DEBUG", "tRuE")] "DEBUG" (.known (.sBool false)) =
      .ok (.known (.sBool (goToUpper "tRuE" == goToUpper "true" ||
                           goToUpper "tRuE" == goToUpper "1"))) :=
  (c7_bool_env_resolution [("DEBUG", "tRuE")] "DEBUG" false).2 "tRuE" (by decide)

/-- C8: a nil pointer-to-struct field is skipped without error — it is
left unchanged, registers no flags (so none of its would-be descendants
produce any), consults no environment name — and the loop carries on with
the remaining fields exactly as if only they followed. -/
theorem c8_nil_pointer_skipped (env : Env) (pfx : String) (i : Nat)
    (name : String) (tags : Tags) (ex : Bool) (post : Fields) :
    stepField env pfx i (.mk name tags ex .ptrStructNil) =
      .ok (.mk name tags ex .ptrStructNil, [], []) ∧
    goFields env (.cons (.mk name tags ex .ptrStructNil) post) pfx i =
      (match goFields env post pfx (i + 1) with
       | .error er => .error er
       | .ok (rest', regs, tr) =>
         .ok (.cons (.mk name tags ex .ptrStructNil) rest', regs, tr)) := by
  have h1 : stepField env pfx i (.mk name tags ex .ptrStructNil) =
      .ok (.mk name tags ex .ptrStructNil, [], []) := by
    cases ex with
    | false => unfold stepField; simp
    | true =>
      unfold stepField
      by_cases hflag : tags.flag = some "-" <;> simp [hflag]
  refine ⟨h1, ?_⟩
  rw [goFields_cons, h1]
  cases h : goFields env post pfx (i + 1) with
  | error er => rfl
  | ok res =>
    obtain ⟨rest', regs, tr⟩ := res
    simp

/-- C10: a scalar field with a present-but-empty env tag uses the empty
string as its environment name; the OS environment lookup of the empty
key always reports absence, so the resolved default is the field's current
struct value, while the field is still registered under its computed flag
name. -/
theorem c10_empty_env_name (env : Env) (pfx : String) (i : Nat)
    (name usage : String) (ftag : Option String) (v : SVal)
    (hflag : ftag ≠ some "-") :
    stepField env pfx i (.mk name ⟨ftag, some "", usage⟩ true (.scalar v)) =
      .ok (.mk name ⟨ftag, some "", usage⟩ true (.scalar v),
           [⟨flagNameFor pfx name ftag, v, usage, [i], some ""⟩],
           [""]) := by
  unfold stepField
  simp only [Bool.not_true, Bool.false_eq_true, if_false]
  rw [if_neg (by simpa using hflag : ¬ (Tags.flag ⟨ftag, some "", usage⟩ = some "-"))]
  rw [if_neg (by simp : ¬ (Tags.env ⟨ftag, some "", usage⟩ = some "-"))]
  have hempty : osLookupEnv env "" = none := by simp [osLookupEnv]
  rw [show envNameFor (flagNameFor pfx name (Tags.flag ⟨ftag, some "", usage⟩))
      (Tags.env ⟨ftag, some "", usage⟩) = "" from rfl]
  rw [lookupEnv_not_set env "" (.known v) hempty]
  simp [assertSame_refl]

/-- Witness for C10: a `Debug bool env:""` field — even with a (in Go
unreachable) empty-named environment entry present, the lookup misses and
the struct default is kept, while the flag `debug` is registered. -/
theorem c10_empty_env_name_witness :
    stepField [("", "true")] "" 0
        (.mk "Debug" ⟨none, some "", ""⟩ true (.scalar (.sBool false))) =
      .ok (.mk "Debug" ⟨none, some "", ""⟩ true (.scalar (.sBool false)),
           [⟨flagNameFor "" "Debug" none, .sBool false, "", [0], some ""⟩],
           [""]) :=
  c10_empty_env_name [("", "true")] "" 0 "Debug" "" none (.sBool false) (by decide)

end Config

